import Mathlib

/-!
Verification development for the statistical analysis engine of
`scripts/compute_flr.py` (Fractal Terminal / Liquidity Tracker).

The analysis core is shallowly embedded: prices, residuals and fitted
quantities are exact reals (the source computes with IEEE doubles; we model
the underlying exact arithmetic), index bookkeeping is over `ℕ`, and every
"skip this window / grid point" path of the source is an explicit `Option`
or guard. The composite regime scorer, whose arithmetic is rational, is
embedded over `ℚ`. Display rounding in the source (`round(x, 4)` etc.) is
presentational and is not modelled.
-/

set_option maxRecDepth 10000

open scoped Classical

noncomputable section

namespace FLR

/-! ## Elementary statistics (numpy `mean`, `std`, `var`, `corrcoef`) -/

/-- Arithmetic mean of a list, `np.mean`: sum divided by length. -/
def mean (l : List ℝ) : ℝ := l.sum / l.length

/-- Population variance (`np.var` with default `ddof=0`, which also underlies
`np.std`): mean squared deviation from the mean. -/
def popVar (l : List ℝ) : ℝ := ((l.map (fun x => (x - mean l) ^ 2)).sum) / l.length

/-- Population standard deviation, `np.std`. -/
def stdDev (l : List ℝ) : ℝ := Real.sqrt (popVar l)

/-- Sample variance with `ddof=1` (`np.var(..., ddof=1)`), used by the rolling
variance series of `compute_csd`. -/
def sampleVar (l : List ℝ) : ℝ :=
  ((l.map (fun x => (x - mean l) ^ 2)).sum) / ((l.length : ℝ) - 1)

/-- Population covariance of two equally long lists (the off-diagonal entry of
`np.cov(x, y, ddof=0)`, which is what `np.corrcoef` normalises). -/
def popCov (xs ys : List ℝ) : ℝ :=
  (∑ k ∈ Finset.range xs.length,
    (xs.getD k 0 - mean xs) * (ys.getD k 0 - mean ys)) / xs.length

/-- Pearson correlation coefficient, `np.corrcoef(x, y)[0, 1]`:
covariance divided by the product of the standard deviations. -/
def pearson (xs ys : List ℝ) : ℝ := popCov xs ys / (stdDev xs * stdDev ys)

/-- Clamp to `[-1, 1]`, `np.clip(x, -1, 1)`. -/
def clampR (x : ℝ) : ℝ := min 1 (max (-1) x)

/-! ## Kernel Detrender (`compute_csd`, Gaussian detrending loop) -/

/-- Gaussian kernel weight `np.exp(-0.5 * ((j - i) / bandwidth) ** 2)`. -/
def gaussW (bandwidth : ℝ) (i j : ℕ) : ℝ :=
  Real.exp (-(1 / 2) * (((j : ℝ) - (i : ℝ)) / bandwidth) ^ 2)

/-- Total kernel weight at position `i`, `weights.sum()`. -/
def weightSum (n : ℕ) (bandwidth : ℝ) (i : ℕ) : ℝ :=
  ∑ j ∈ Finset.range n, gaussW bandwidth i j

/-- Trend value at index `i`: the source normalises the weight vector by its
sum and then takes `np.sum(weights * prices)`. -/
def trendAt (prices : List ℝ) (bandwidth : ℝ) (i : ℕ) : ℝ :=
  ∑ j ∈ Finset.range prices.length,
    gaussW bandwidth i j / weightSum prices.length bandwidth i * prices.getD j 0

/-- Residual series `residuals = prices - trend`, same length as the input. -/
def residualList (prices : List ℝ) (bandwidth : ℝ) : List ℝ :=
  (List.range prices.length).map (fun i => prices.getD i 0 - trendAt prices bandwidth i)

/-! ## Rolling Resilience Estimator (`compute_csd`, rolling AR(1) loop) -/

/-- Python slice `l[a:b]` for `a ≤ b ≤ len(l)`. -/
def sliceSeg (l : List ℝ) (a b : ℕ) : List ℝ := (l.drop a).take (b - a)

/-- Rolling lag-1 autocorrelation array. The source preallocates an
all-`NaN` array of length `n` and fills index `i` for
`i in range(window + 1, n)` only when both window slices have positive
standard deviation; `NaN` (never filled / skipped) is modelled as `none`. -/
def ar1List (residuals : List ℝ) (window : ℕ) : List (Option ℝ) :=
  (List.range residuals.length).map (fun i =>
    if window + 1 ≤ i then
      if 0 < stdDev (sliceSeg residuals (i - window) i) ∧
          0 < stdDev (sliceSeg residuals (i - window - 1) (i - 1)) then
        some (clampR (pearson (sliceSeg residuals (i - window) i)
          (sliceSeg residuals (i - window - 1) (i - 1))))
      else none
    else none)

/-- Rolling sample variance array: filled for `i in range(window, n)` with
`np.var(residuals[i-window:i], ddof=1)`. -/
def varianceList (residuals : List ℝ) (window : ℕ) : List (Option ℝ) :=
  (List.range residuals.length).map (fun i =>
    if window ≤ i then some (sampleVar (sliceSeg residuals (i - window) i)) else none)

/-! ## Rank Trend Scorer (`compute_csd`, Kendall's tau loop) -/

/-- Number of concordant pairs: pairs `i < j` with
`(j - i) * (recent[j] - recent[i]) > 0`. The source iterates
`i in range(len - 1)`, `j in range(i + 1, len)`; the pair set is identical. -/
def concordantCount (l : List ℝ) : ℕ :=
  ∑ i ∈ Finset.range l.length, ∑ j ∈ Finset.Ioo i l.length,
    if 0 < ((j : ℝ) - (i : ℝ)) * (l.getD j 0 - l.getD i 0) then 1 else 0

/-- Number of discordant pairs: pairs `i < j` with
`(j - i) * (recent[j] - recent[i]) < 0`. -/
def discordantCount (l : List ℝ) : ℕ :=
  ∑ i ∈ Finset.range l.length, ∑ j ∈ Finset.Ioo i l.length,
    if ((j : ℝ) - (i : ℝ)) * (l.getD j 0 - l.getD i 0) < 0 then 1 else 0

/-- Python slice `l[-k:]`: the last `k` elements (the whole list if shorter). -/
def lastN (l : List ℝ) (k : ℕ) : List ℝ := l.drop (l.length - k)

/-- Kendall's tau of the source: `tau = 0` unless at least 100 defined
resilience values exist; otherwise computed on the most recent 100 values
as `(concordant - discordant) / pairs` with `pairs = len * (len - 1) / 2`
(guarded by `pairs > 0`). -/
def kendallTau (valid : List ℝ) : ℝ :=
  if valid.length < 100 then 0
  else
    if 0 < (((lastN valid 100).length * ((lastN valid 100).length - 1) : ℕ) : ℝ) / 2 then
      (((concordantCount (lastN valid 100)) : ℝ) - ((discordantCount (lastN valid 100)) : ℝ)) /
        ((((lastN valid 100).length * ((lastN valid 100).length - 1) : ℕ) : ℝ) / 2)
    else 0

/-! ## CSD Pipeline (`compute_csd` packaging) -/

/-- The fields of the CSD report used by the downstream pipeline (the source
additionally ships the raw per-index arrays; display rounding is omitted). -/
structure CsdReport where
  current_ar1 : ℝ
  current_variance : ℝ
  kendall_tau : ℝ
  status : String

/-- Status classification of `compute_csd`, applied to `current_ar1`. -/
def csdStatus (x : ℝ) : String :=
  if 0.8 < x then ("CRITICAL")
  else if 0.7 < x then ("ELEVATED")
  else if 0.6 < x then ("RISING")
  else ("NORMAL")

/-- The CSD pipeline: detrend, rolling AR(1) and variance, Kendall tau, and
the latest defined values (`valid[-1]` if any, else `0`). -/
def computeCsd (prices : List ℝ) (bandwidth : ℝ) (window : ℕ) : CsdReport :=
  { current_ar1 := (((ar1List (residualList prices bandwidth) window).filterMap id).getLast?).getD 0
    current_variance :=
      (((varianceList (residualList prices bandwidth) window).filterMap id).getLast?).getD 0
    kendall_tau := kendallTau ((ar1List (residualList prices bandwidth) window).filterMap id)
    status :=
      csdStatus ((((ar1List (residualList prices bandwidth) window).filterMap id).getLast?).getD 0) }

/-! ## Composite Regime Scorer (`main`, regime score block)

The scorer consumes the already-computed report fields, so it is embedded as
a standalone function of those fields; its arithmetic is rational. -/

/-- `ar1_score = min(100, max(0, (current_ar1 - 0.3) / 0.5 * 100))`. -/
def ar1Score (current_ar1 : ℚ) : ℚ := min 100 (max 0 ((current_ar1 - 0.3) / 0.5 * 100))

/-- `tau_score = min(100, max(0, (kendall_tau + 0.5) / 1.0 * 100))`. -/
def tauScore (kendall_tau : ℚ) : ℚ := min 100 (max 0 ((kendall_tau + 0.5) / 1.0 * 100))

/-- `lppl_score = confidence if is_bubble else 0`. -/
def lpplScore (is_bubble : Bool) (confidence : ℚ) : ℚ := if is_bubble then confidence else 0

/-- `liq_score = min(100, max(0, (6500 - net_liquidity) / 20))`. -/
def liquidityScore (net_liquidity : ℚ) : ℚ := min 100 (max 0 ((6500 - net_liquidity) / 20))

/-- `composite = ar1_score * 0.35 + tau_score * 0.20 + lppl_score * 0.25 + liq_score * 0.20`. -/
def compositeScore (a tau : ℚ) (isB : Bool) (conf nl : ℚ) : ℚ :=
  ar1Score a * 0.35 + tauScore tau * 0.20 + lpplScore isB conf * 0.25 + liquidityScore nl * 0.20

/-- Status and signal labels from the composite score breakpoints. -/
def regimeLabel (composite : ℚ) : String × String :=
  if 70 < composite then ("CRITICAL", "STRONG SELL")
  else if 55 < composite then ("ELEVATED", "REDUCE RISK")
  else if 40 < composite then ("CAUTION", "HOLD")
  else if 25 < composite then ("NORMAL", "ACCUMULATE")
  else ("FAVORABLE", "STRONG BUY")

/-! ## LPPL Fitter (`compute_lppl`)

The fitter works on the trailing `min(500, n)` prices. Each grid point
`(tc, m, ω, φ)` is evaluated by an ordinary-least-squares solve of the
normal equations for `ln(price) = A + B·f + C·g`; grid points are skipped
when `dt ≤ 0` somewhere in the window, when the normal system is singular
(`np.linalg.solve` raises and the `except: continue` fires), or when the
Sornette coefficient filter rejects the fit. -/

/-- Python `range(start, stop, step)` for positive `step`. -/
def rangeStep (start stop step : ℕ) : List ℕ :=
  (List.range ((stop - start + step - 1) / step)).map (fun k => start + step * k)

/-- The enumerated critical times `range(lookback + 10, lookback + 250, 20)`. -/
def tcGrid (lookback : ℕ) : List ℕ := rangeStep (lookback + 10) (lookback + 250) 20

/-- The enumerated power-law exponents. -/
def mGrid : List ℝ := [0.2, 0.33, 0.5, 0.67, 0.8]

/-- The enumerated angular log-frequencies. -/
def omegaGrid : List ℝ := [6, 7, 8, 9, 10, 11, 12]

/-- The enumerated phases `[0, π/2, π, 3π/2]`. -/
def phiGrid : List ℝ := [0, Real.pi / 2, Real.pi, 3 * Real.pi / 2]

/-- All grid points in the source's enumeration order
(`tc` outermost, then `m`, `ω`, `φ`). -/
def allGridPoints (lookback : ℕ) : List (ℕ × ℝ × ℝ × ℝ) :=
  (tcGrid lookback).flatMap (fun tc =>
    mGrid.flatMap (fun m =>
      omegaGrid.flatMap (fun om =>
        phiGrid.map (fun phi => (tc, m, om, phi)))))

/-- The rejection guard `np.any(dt <= 0)` with `dt = tc - t`,
`t = 0, …, lookback - 1`. -/
def dtGuard (lookback tc : ℕ) : Prop :=
  ∃ t ∈ Finset.range lookback, (tc : ℤ) - (t : ℤ) ≤ 0

/-- Regressor `f(t) = dt^m` (real power `np.power(dt, m)`). -/
def lpplF (tc : ℕ) (m : ℝ) (t : ℕ) : ℝ := ((tc : ℝ) - (t : ℝ)) ^ m

/-- Regressor `g(t) = dt^m * cos(ω * ln(dt) + φ)`. -/
def lpplG (tc : ℕ) (m om phi : ℝ) (t : ℕ) : ℝ :=
  ((tc : ℝ) - (t : ℝ)) ^ m * Real.cos (om * Real.log ((tc : ℝ) - (t : ℝ)) + phi)

/-- Columns of the design matrix `X = [1, f_t, g_t]`. -/
def designCol (tc : ℕ) (m om phi : ℝ) : Fin 3 → ℕ → ℝ :=
  ![fun _ => 1, lpplF tc m, lpplG tc m om phi]

/-- Normal matrix `X.T @ X`. -/
def normalMatrix (lookback tc : ℕ) (m om phi : ℝ) : Matrix (Fin 3) (Fin 3) ℝ :=
  fun a b => ∑ t ∈ Finset.range lookback, designCol tc m om phi a t * designCol tc m om phi b t

/-- Right-hand side `X.T @ log_prices`. -/
def normalVector (y : ℕ → ℝ) (lookback tc : ℕ) (m om phi : ℝ) : Fin 3 → ℝ :=
  fun a => ∑ t ∈ Finset.range lookback, designCol tc m om phi a t * y t

/-- `np.linalg.solve` on a 3×3 system: the unique solution when the matrix is
invertible, and `none` (the `LinAlgError` caught by `except: continue`) when
it is singular. -/
def solve3 (M : Matrix (Fin 3) (Fin 3) ℝ) (b : Fin 3 → ℝ) : Option (Fin 3 → ℝ) :=
  if M.det = 0 then none else some (M⁻¹.mulVec b)

/-- The source's coefficient rejection test `B >= 0 or abs(C) > abs(B)`. -/
def sornetteReject (B C : ℝ) : Prop := 0 ≤ B ∨ |B| < |C|

/-- `r2 = 1 - ss_res / ss_tot if ss_tot > 0 else 0` against `y` on the window. -/
def rSquared (y : ℕ → ℝ) (lookback : ℕ) (predicted : ℕ → ℝ) : ℝ :=
  if 0 < ∑ t ∈ Finset.range lookback, (y t - (∑ s ∈ Finset.range lookback, y s) / lookback) ^ 2 then
    1 - (∑ t ∈ Finset.range lookback, (y t - predicted t) ^ 2) /
      (∑ t ∈ Finset.range lookback, (y t - (∑ s ∈ Finset.range lookback, y s) / lookback) ^ 2)
  else 0

/-- The per-grid-point record kept by the search, `{"tc", "m", "omega", "r2"}`. -/
structure Fit where
  tc : ℕ
  m : ℝ
  omega : ℝ
  r2 : ℝ

/-- Evaluation of a single grid point: `none` on any of the three skip paths
(`dt ≤ 0`, singular normal system, Sornette rejection), otherwise the fitted
record with its goodness of fit. -/
def evalGridPoint (y : ℕ → ℝ) (lookback tc : ℕ) (m om phi : ℝ) : Option Fit :=
  if dtGuard lookback tc then none
  else
    match solve3 (normalMatrix lookback tc m om phi) (normalVector y lookback tc m om phi) with
    | none => none
    | some c =>
      if sornetteReject (c 1) (c 2) then none
      else
        some ⟨tc, m, om,
          rSquared y lookback (fun t => c 0 + c 1 * lpplF tc m t + c 2 * lpplG tc m om phi t)⟩

/-- `r` beats the running best (`best_r2` starts at `-inf`, so an empty best
is always beaten). -/
def beats (best : Option Fit) (r : ℝ) : Prop := ∀ b ∈ best, b.r2 < r

/-- One step of the grid-search fold: keep the candidate when it beats
`best_r2` and exceeds the `0.7` acceptance threshold. -/
def lpplStep (y : ℕ → ℝ) (lookback : ℕ) (best : Option Fit) (q : ℕ × ℝ × ℝ × ℝ) : Option Fit :=
  match evalGridPoint y lookback q.1 q.2.1 q.2.2.1 q.2.2.2 with
  | none => best
  | some fit => if beats best fit.r2 ∧ 0.7 < fit.r2 then some fit else best

/-- `log_prices = np.log(prices[-lookback:])`, indexed by window position. -/
def lpplY (prices : List ℝ) (lookback : ℕ) : ℕ → ℝ :=
  fun t => Real.log ((lastN prices lookback).getD t 0)

/-- The full grid search over the trailing window: fold of `lpplStep` over
all grid points, starting from no candidate. -/
def lpplSearch (prices : List ℝ) : Option Fit :=
  (allGridPoints (min 500 prices.length)).foldl
    (lpplStep (lpplY prices (min 500 prices.length)) (min 500 prices.length)) none

/-- The `_lppl_result` record (the `tc_date` field, derived from the ambient
wall clock `datetime.now()`, is not modelled; display rounding is omitted). -/
structure LpplReport where
  is_bubble : Bool
  confidence : ℤ
  tc_days : Option ℤ
  r2 : Option ℝ
  omega : Option ℝ
  m : Option ℝ
  status : String

/-- `_lppl_result(False, 0, None, None, None, None, None, reason)`. -/
def lpplNoSig (reason : String) : LpplReport := ⟨false, 0, none, none, none, none, reason⟩

/-- The final range checks `0.1 < m < 0.9`, `6 < omega < 13`, `5 < tc_days < 365`. -/
def lpplRangeOK (f : Fit) (tcDays : ℤ) : Prop :=
  (0.1 < f.m ∧ f.m < 0.9) ∧ (6 < f.omega ∧ f.omega < 13) ∧ (5 < tcDays ∧ tcDays < 365)

/-- `confidence = int(min(100, max(0, (r2 - 0.7) / 0.25 * 100)))`. Python's
`int()` truncates toward zero; the argument is nonnegative after `max(0, ·)`,
so this is the floor. -/
def lpplConfidence (r2 : ℝ) : ℤ := ⌊min 100 (max 0 ((r2 - 0.7) / 0.25 * 100))⌋

/-- The post-search stage of `compute_lppl`: no candidate (or, redundantly,
a candidate with `r2 < 0.7`) gives the no-signature report; otherwise
`tc_days = tc - lookback + 1` and the three range checks decide `is_bubble`. -/
def lpplTail (lookback : ℕ) (best : Option Fit) : LpplReport :=
  match best with
  | none => lpplNoSig ("No bubble signature")
  | some f =>
    if f.r2 < 0.7 then lpplNoSig ("No bubble signature")
    else
      if lpplRangeOK f ((f.tc : ℤ) - (lookback : ℤ) + 1) then
        ⟨true, lpplConfidence f.r2,
          if 5 < (f.tc : ℤ) - (lookback : ℤ) + 1 ∧ (f.tc : ℤ) - (lookback : ℤ) + 1 < 365 then
            some ((f.tc : ℤ) - (lookback : ℤ) + 1)
          else none,
          some f.r2, some f.omega, some f.m, "BUBBLE DETECTED"⟩
      else
        ⟨false, 0,
          if 5 < (f.tc : ℤ) - (lookback : ℤ) + 1 ∧ (f.tc : ℤ) - (lookback : ℤ) + 1 < 365 then
            some ((f.tc : ℤ) - (lookback : ℤ) + 1)
          else none,
          some f.r2, some f.omega, some f.m, "No bubble signature"⟩

/-- `compute_lppl`: series shorter than 100 points return the insufficient-data
report; otherwise the grid search result is post-processed by `lpplTail`.
The function body's blanket `try/except` has no remaining failure source in
exact arithmetic, so it introduces no extra branch. -/
def computeLppl (prices : List ℝ) : LpplReport :=
  if prices.length < 100 then lpplNoSig ("Insufficient data")
  else lpplTail (min 500 prices.length) (lpplSearch prices)

/-! ## Helper lemmas -/

/-- Indexing a `List.range`-generated list below its length. -/
theorem getD_map_range {α : Type} (f : ℕ → α) (n i : ℕ) (d : α) (h : i < n) :
    ((List.range n).map f).getD i d = f i := by
  simp [List.getD_eq_getElem?_getD, List.getElem?_range h]

/-- The population variance is a mean of squares, hence nonnegative. -/
theorem popVar_nonneg (l : List ℝ) : 0 ≤ popVar l := by
  unfold popVar
  refine div_nonneg (List.sum_nonneg ?_) (Nat.cast_nonneg _)
  intro x hx
  rcases List.mem_map.1 hx with ⟨a, -, rfl⟩
  positivity

/-- The source's slice guard `np.std(w) > 0` holds exactly when the slice has
nonzero variance. -/
theorem stdDev_pos_iff (l : List ℝ) : 0 < stdDev l ↔ popVar l ≠ 0 := by
  rw [stdDev, Real.sqrt_pos]
  exact ⟨ne_of_gt, fun h => lt_of_le_of_ne (popVar_nonneg l) (Ne.symm h)⟩

/-- One grid-search step preserves the invariant that any kept candidate has
`r2 > 0.7`. -/
theorem lpplStep_r2 (y : ℕ → ℝ) (lookback : ℕ) (best : Option Fit) (q : ℕ × ℝ × ℝ × ℝ)
    (hb : ∀ g ∈ best, (0.7 : ℝ) < g.r2) : ∀ g ∈ lpplStep y lookback best q, (0.7 : ℝ) < g.r2 := by
  intro g hg
  unfold lpplStep at hg
  rcases hev : evalGridPoint y lookback q.1 q.2.1 q.2.2.1 q.2.2.2 with - | fit
  · rw [hev] at hg
    exact hb g hg
  · rw [hev] at hg
    dsimp only at hg
    by_cases hc : beats best fit.r2 ∧ (0.7 : ℝ) < fit.r2
    · rw [if_pos hc] at hg
      cases hg
      exact hc.2
    · rw [if_neg hc] at hg
      exact hb g hg

/-- The grid-search fold preserves the `r2 > 0.7` invariant. -/
theorem foldl_lpplStep_r2 (y : ℕ → ℝ) (lookback : ℕ) :
    ∀ (l : List (ℕ × ℝ × ℝ × ℝ)) (init : Option Fit),
      (∀ g ∈ init, (0.7 : ℝ) < g.r2) →
      ∀ g ∈ l.foldl (lpplStep y lookback) init, (0.7 : ℝ) < g.r2 := by
  intro l
  induction l with
  | nil => intro init h; simpa using h
  | cons a l ih => intro init h; exact ih _ (lpplStep_r2 y lookback init a h)

/-- Any candidate returned by the grid search exceeded the `0.7` acceptance
threshold (so the redundant `best_fit["r2"] < 0.7` re-check never fires). -/
theorem lpplSearch_r2 (prices : List ℝ) (f : Fit) (h : lpplSearch prices = some f) :
    (0.7 : ℝ) < f.r2 := by
  refine foldl_lpplStep_r2 (lpplY prices (min 500 prices.length)) (min 500 prices.length)
    (allGridPoints (min 500 prices.length)) none (by simp) f ?_
  rw [lpplSearch] at h
  rw [h]
  rfl

/-- Explicit form of the enumerated critical times. -/
theorem tcGrid_mem {lookback tc : ℕ} (h : tc ∈ tcGrid lookback) :
    ∃ k, k < 12 ∧ tc = lookback + 10 + 20 * k := by
  rw [tcGrid, rangeStep] at h
  rcases List.mem_map.1 h with ⟨k, hk, rfl⟩
  rw [List.mem_range] at hk
  have he : lookback + 250 - (lookback + 10) + 20 - 1 = 259 := by omega
  rw [he] at hk
  norm_num at hk
  exact ⟨k, hk, rfl⟩

/-- Gauss-style identity for the pair count of the Kendall loop. -/
theorem sum_range_pred (n : ℕ) : ∑ i ∈ Finset.range n, (n - i - 1) = n * (n - 1) / 2 := by
  calc ∑ i ∈ Finset.range n, (n - i - 1)
      = ∑ i ∈ Finset.range n, (n - 1 - i) := Finset.sum_congr rfl (fun i _ => by omega)
    _ = ∑ i ∈ Finset.range n, i := Finset.sum_range_reflect (fun j => j) n
    _ = n * (n - 1) / 2 := Finset.sum_range_id n

/-- On a strictly increasing list every pair is concordant and none is
discordant. -/
theorem kendall_counts_of_lt (l : List ℝ) (hp : l.Pairwise (· < ·)) :
    concordantCount l = ∑ i ∈ Finset.range l.length, (l.length - i - 1) ∧
      discordantCount l = 0 := by
  have key : ∀ i j, i < j → j < l.length →
      0 < ((j : ℝ) - (i : ℝ)) * (l.getD j 0 - l.getD i 0) := by
    intro i j hij hj
    have hi : i < l.length := lt_trans hij hj
    have hgd : l.getD i 0 < l.getD j 0 := by
      rw [List.getD_eq_getElem?_getD, List.getD_eq_getElem?_getD,
        List.getElem?_eq_getElem hi, List.getElem?_eq_getElem hj]
      exact List.pairwise_iff_getElem.1 hp i j hi hj hij
    have hij' : (i : ℝ) < (j : ℝ) := by exact_mod_cast hij
    exact mul_pos (by linarith) (by linarith)
  constructor
  · unfold concordantCount
    refine Finset.sum_congr rfl (fun i hi => ?_)
    calc (∑ j ∈ Finset.Ioo i l.length,
            if 0 < ((j : ℝ) - (i : ℝ)) * (l.getD j 0 - l.getD i 0) then 1 else 0)
        = ∑ j ∈ Finset.Ioo i l.length, 1 := by
          refine Finset.sum_congr rfl (fun j hj => ?_)
          rw [Finset.mem_Ioo] at hj
          rw [if_pos (key i j hj.1 hj.2)]
      _ = l.length - i - 1 := by rw [Finset.sum_const, Nat.card_Ioo, smul_eq_mul, mul_one]
  · unfold discordantCount
    refine Finset.sum_eq_zero (fun i _ => Finset.sum_eq_zero (fun j hj => ?_))
    rw [Finset.mem_Ioo] at hj
    rw [if_neg (not_lt.mpr (le_of_lt (key i j hj.1 hj.2)))]

/-- On a strictly decreasing list every pair is discordant and none is
concordant. -/
theorem kendall_counts_of_gt (l : List ℝ) (hp : l.Pairwise (· > ·)) :
    concordantCount l = 0 ∧
      discordantCount l = ∑ i ∈ Finset.range l.length, (l.length - i - 1) := by
  have key : ∀ i j, i < j → j < l.length →
      ((j : ℝ) - (i : ℝ)) * (l.getD j 0 - l.getD i 0) < 0 := by
    intro i j hij hj
    have hi : i < l.length := lt_trans hij hj
    have hgd : l.getD j 0 < l.getD i 0 := by
      rw [List.getD_eq_getElem?_getD, List.getD_eq_getElem?_getD,
        List.getElem?_eq_getElem hi, List.getElem?_eq_getElem hj]
      exact List.pairwise_iff_getElem.1 hp i j hi hj hij
    have hij' : (i : ℝ) < (j : ℝ) := by exact_mod_cast hij
    exact mul_neg_of_pos_of_neg (by linarith) (by linarith)
  constructor
  · unfold concordantCount
    refine Finset.sum_eq_zero (fun i _ => Finset.sum_eq_zero (fun j hj => ?_))
    rw [Finset.mem_Ioo] at hj
    rw [if_neg (not_lt.mpr (le_of_lt (key i j hj.1 hj.2)))]
  · unfold discordantCount
    refine Finset.sum_congr rfl (fun i hi => ?_)
    calc (∑ j ∈ Finset.Ioo i l.length,
            if ((j : ℝ) - (i : ℝ)) * (l.getD j 0 - l.getD i 0) < 0 then 1 else 0)
        = ∑ j ∈ Finset.Ioo i l.length, 1 := by
          refine Finset.sum_congr rfl (fun j hj => ?_)
          rw [Finset.mem_Ioo] at hj
          rw [if_pos (key i j hj.1 hj.2)]
      _ = l.length - i - 1 := by rw [Finset.sum_const, Nat.card_Ioo, smul_eq_mul, mul_one]

/-- On the constant series `replicate 100 1` every log-price is zero (and so
is the out-of-window junk value `log 0`). -/
theorem lpplY_replicate_one (t : ℕ) :
    lpplY (List.replicate 100 (1 : ℝ)) (min 500 (List.replicate 100 (1 : ℝ)).length) t = 0 := by
  have hmin : min 500 (List.replicate 100 (1 : ℝ)).length = 100 := by
    rw [List.length_replicate]
    omega
  rw [lpplY, lastN, hmin, List.length_replicate, Nat.sub_self, List.drop_zero]
  rcases lt_or_ge t 100 with ht | ht
  · rw [List.getD_eq_getElem?_getD, List.getElem?_replicate, if_pos ht, Option.getD_some]
    exact Real.log_one
  · rw [List.getD_eq_getElem?_getD, List.getElem?_replicate, if_neg (not_lt.mpr ht)]
    exact Real.log_zero

/-- With identically-zero targets, every grid point is rejected: either the
`dt` guard fires, or the normal system is singular, or the solved
coefficients are all zero and `B = 0` fails the Sornette filter. -/
theorem evalGridPoint_of_y_zero (y : ℕ → ℝ) (hy : ∀ t, y t = 0) (lookback tc : ℕ)
    (m om phi : ℝ) : evalGridPoint y lookback tc m om phi = none := by
  rw [evalGridPoint]
  by_cases hg : dtGuard lookback tc
  · rw [if_pos hg]
  · rw [if_neg hg]
    have hb : normalVector y lookback tc m om phi = 0 := by
      funext a
      rw [normalVector]
      simp [hy]
    rcases hsolve : solve3 (normalMatrix lookback tc m om phi)
        (normalVector y lookback tc m om phi) with - | c
    · rfl
    · have hc : c = 0 := by
        rw [solve3] at hsolve
        by_cases hdet : (normalMatrix lookback tc m om phi).det = 0
        · rw [if_pos hdet] at hsolve
          cases hsolve
        · rw [if_neg hdet] at hsolve
          rw [hb, Matrix.mulVec_zero] at hsolve
          cases hsolve
          rfl
      have hrej : sornetteReject (c 1) (c 2) := by
        rw [hc]
        exact Or.inl (le_of_eq rfl)
      exact if_pos hrej

/-- Folding the grid-search step over any grid with identically-zero targets
keeps the initial (empty) best candidate. -/
theorem foldl_lpplStep_const (y : ℕ → ℝ) (lookback : ℕ) (hy : ∀ t, y t = 0) :
    ∀ (l : List (ℕ × ℝ × ℝ × ℝ)) (init : Option Fit),
      l.foldl (lpplStep y lookback) init = init := by
  intro l
  induction l with
  | nil => intro init; rfl
  | cons a l ih =>
    intro init
    rw [List.foldl_cons, lpplStep, evalGridPoint_of_y_zero y hy]
    exact ih init

/-- The grid search on the constant series `replicate 100 1` keeps no
candidate. -/
theorem lpplSearch_replicate_one : lpplSearch (List.replicate 100 (1 : ℝ)) = none := by
  rw [lpplSearch]
  exact foldl_lpplStep_const _ _ lpplY_replicate_one _ none

/-! ## Claim theorems -/

/-- C1: for every CSD report, LPPL report and net-liquidity input, the
composite regime score is the fixed weighted sum
`0.35·AR1score + 0.20·Tauscore + 0.25·LPPLscore + 0.20·Liquidityscore` of the
four clamped sub-scores, the status/signal labels follow the breakpoints
`>70 CRITICAL/STRONG SELL`, `>55 ELEVATED/REDUCE RISK`, `>40 CAUTION/HOLD`,
`>25 NORMAL/ACCUMULATE`, else `FAVORABLE/STRONG BUY`, and on the inputs
`current_ar1 = 0.85`, `kendall_tau = 0.6`, `is_bubble = true` with
`confidence = 80`, `net_liquidity = 5000` the composite equals `90` with
status `CRITICAL` and signal `STRONG SELL`. -/
theorem c1_composite_regime :
    (∀ (a t : ℚ) (isB : Bool) (conf nl : ℚ),
      compositeScore a t isB conf nl =
        0.35 * min 100 (max 0 ((a - 0.3) / 0.5 * 100)) +
        0.20 * min 100 (max 0 ((t + 0.5) / 1.0 * 100)) +
        0.25 * (if isB then conf else 0) +
        0.20 * min 100 (max 0 ((6500 - nl) / 20))) ∧
    (∀ c : ℚ,
      (70 < c → regimeLabel c = ("CRITICAL", "STRONG SELL")) ∧
      (c ≤ 70 → 55 < c → regimeLabel c = ("ELEVATED", "REDUCE RISK")) ∧
      (c ≤ 55 → 40 < c → regimeLabel c = ("CAUTION", "HOLD")) ∧
      (c ≤ 40 → 25 < c → regimeLabel c = ("NORMAL", "ACCUMULATE")) ∧
      (c ≤ 25 → regimeLabel c = ("FAVORABLE", "STRONG BUY"))) ∧
    (compositeScore 0.85 0.6 true 80 5000 = 90 ∧
      regimeLabel (compositeScore 0.85 0.6 true 80 5000) = ("CRITICAL", "STRONG SELL")) := by
  refine ⟨?_, ?_, ?_, ?_⟩
  · intro a t isB conf nl
    simp only [compositeScore, ar1Score, tauScore, lpplScore, liquidityScore]
    ring
  · intro c
    refine ⟨?_, ?_, ?_, ?_, ?_⟩
    · intro h1
      rw [regimeLabel, if_pos h1]
    · intro h1 h2
      rw [regimeLabel, if_neg (not_lt.mpr h1), if_pos h2]
    · intro h1 h2
      rw [regimeLabel, if_neg (by linarith), if_neg (not_lt.mpr h1), if_pos h2]
    · intro h1 h2
      rw [regimeLabel, if_neg (by linarith), if_neg (by linarith), if_neg (not_lt.mpr h1),
        if_pos h2]
    · intro h1
      rw [regimeLabel, if_neg (by linarith), if_neg (by linarith), if_neg (by linarith),
        if_neg (not_lt.mpr h1)]
  · simp only [compositeScore, ar1Score, tauScore, lpplScore, liquidityScore, if_pos]
    norm_num
  · have hcomp : compositeScore 0.85 0.6 true 80 5000 = 90 := by
      simp only [compositeScore, ar1Score, tauScore, lpplScore, liquidityScore, if_pos]
      norm_num
    rw [hcomp, regimeLabel, if_pos (by norm_num : (70 : ℚ) < 90)]

/-- Witness for C1: the worked example reached through the theorem. -/
theorem c1_composite_regime_witness :
    regimeLabel 90 = ("CRITICAL", "STRONG SELL") ∧
      compositeScore 0.85 0.6 true 80 5000 = 90 :=
  ⟨(c1_composite_regime.2.1 90).1 (by norm_num), c1_composite_regime.2.2.1⟩

/-- C3 counterexample: at the fitted coefficients `B = -1`, `C = 1` the
source's filter accepts the grid point (the rejection test
`B >= 0 or abs(C) > abs(B)` is false), yet the claim's strict condition
`|C| < |B|` fails, so acceptance is not equivalent to
`B < 0 ∧ |C| < |B|`. -/
theorem c3_filter_counterexample :
    ¬ sornetteReject (-1 : ℝ) 1 ∧ ¬ ((-1 : ℝ) < 0 ∧ |(1 : ℝ)| < |(-1 : ℝ)|) := by
  constructor
  · rintro (h | h)
    · norm_num at h
    · rw [abs_one, abs_neg, abs_one] at h
      exact lt_irrefl 1 h
  · rintro ⟨-, h⟩
    rw [abs_one, abs_neg, abs_one] at h
    exact lt_irrefl 1 h

/-- C3 (amended): a grid point's fitted coefficients are accepted past the
admissibility filter iff `B` is strictly negative and `|C| ≤ |B|`
(non-strict), and a rejected point is skipped: it produces no candidate for
the search. -/
theorem c3_filter_amended :
    (∀ B C : ℝ, ¬ sornetteReject B C ↔ B < 0 ∧ |C| ≤ |B|) ∧
    (∀ (y : ℕ → ℝ) (lookback tc : ℕ) (m om phi : ℝ) (c : Fin 3 → ℝ),
      ¬ dtGuard lookback tc →
      solve3 (normalMatrix lookback tc m om phi) (normalVector y lookback tc m om phi) = some c →
      sornetteReject (c 1) (c 2) →
      evalGridPoint y lookback tc m om phi = none) := by
  constructor
  · intro B C
    rw [sornetteReject, not_or, not_le, not_lt]
  · intro y lookback tc m om phi c hg hs hrej
    rw [evalGridPoint, if_neg hg, hs]
    exact if_pos hrej

/-- Witness for C3's amended theorem: `B = -2`, `C = 1` passes the filter. -/
theorem c3_filter_amended_witness : ¬ sornetteReject (-2 : ℝ) 1 :=
  (c3_filter_amended.1 (-2) 1).mpr (by constructor <;> norm_num)

/-- C10: every enumerated critical time keeps `dt = tc - t` at least `11`
(hence strictly positive, so `dt^m` and `ln dt` take positive arguments),
and the `dt ≤ 0` rejection guard never fires on an enumerated grid point. -/
theorem c10_dt_positive (lookback tc : ℕ) (h : tc ∈ tcGrid lookback) :
    (∀ t : ℕ, t < lookback →
      11 ≤ (tc : ℤ) - (t : ℤ) ∧ (0 : ℝ) < (tc : ℝ) - (t : ℝ)) ∧
    ¬ dtGuard lookback tc := by
  obtain ⟨k, -, rfl⟩ := tcGrid_mem h
  constructor
  · intro t ht
    constructor
    · push_cast
      omega
    · push_cast
      have ht' : (t : ℝ) < (lookback : ℝ) := by exact_mod_cast ht
      have hk' : (0 : ℝ) ≤ (k : ℝ) := Nat.cast_nonneg k
      linarith
  · rintro ⟨t, ht, hle⟩
    rw [Finset.mem_range] at ht
    push_cast at hle
    omega

/-- Witness for C10 at `lookback = 100`, `tc = 110`, `t = 5`. -/
theorem c10_dt_positive_witness :
    11 ≤ ((110 : ℕ) : ℤ) - ((5 : ℕ) : ℤ) ∧
      (0 : ℝ) < ((110 : ℕ) : ℝ) - ((5 : ℕ) : ℝ) :=
  (c10_dt_positive 100 110 (by decide)).1 5 (by decide)

/-- C5: the CSD status is a pure function of the single latest defined
resilience value with thresholds `>0.8 CRITICAL`, `>0.7 ELEVATED`,
`>0.6 RISING`, else `NORMAL`; and for every input series with fewer than
`window + 1` points no resilience value is defined, `current_ar1` is `0` and
the status is `NORMAL`. -/
theorem c5_csd_status :
    (∀ x : ℝ,
      (0.8 < x → csdStatus x = "CRITICAL") ∧
      (x ≤ 0.8 → 0.7 < x → csdStatus x = "ELEVATED") ∧
      (x ≤ 0.7 → 0.6 < x → csdStatus x = "RISING") ∧
      (x ≤ 0.6 → csdStatus x = "NORMAL")) ∧
    (∀ (prices : List ℝ) (bandwidth : ℝ) (window : ℕ),
      (computeCsd prices bandwidth window).status =
        csdStatus ((computeCsd prices bandwidth window).current_ar1)) ∧
    (∀ (prices : List ℝ) (bandwidth : ℝ) (window : ℕ),
      prices.length < window + 1 →
      (computeCsd prices bandwidth window).current_ar1 = 0 ∧
        (computeCsd prices bandwidth window).status = "NORMAL") := by
  refine ⟨?_, ?_, ?_⟩
  · intro x
    refine ⟨?_, ?_, ?_, ?_⟩
    · intro h1
      rw [csdStatus, if_pos h1]
    · intro h1 h2
      rw [csdStatus, if_neg (not_lt.mpr h1), if_pos h2]
    · intro h1 h2
      rw [csdStatus, if_neg (by linarith), if_neg (not_lt.mpr h1), if_pos h2]
    · intro h1
      rw [csdStatus, if_neg (by linarith), if_neg (by linarith), if_neg (not_lt.mpr h1)]
  · intro prices bandwidth window
    rfl
  · intro prices bandwidth window hlen
    have hrl : (residualList prices bandwidth).length = prices.length := by
      simp [residualList]
    have hnil : (ar1List (residualList prices bandwidth) window).filterMap id = [] := by
      refine List.filterMap_eq_nil_iff.mpr (fun a ha => ?_)
      rw [ar1List] at ha
      rcases List.mem_map.1 ha with ⟨i, hi, rfl⟩
      rw [List.mem_range, hrl] at hi
      rw [if_neg (by omega)]
      rfl
    constructor
    · simp [computeCsd, hnil]
    · have hz : (computeCsd prices bandwidth window).current_ar1 = 0 := by
        simp [computeCsd, hnil]
      have hs : (computeCsd prices bandwidth window).status =
          csdStatus ((computeCsd prices bandwidth window).current_ar1) := rfl
      rw [hs, hz, csdStatus, if_neg (by norm_num), if_neg (by norm_num), if_neg (by norm_num)]

/-- Witness for C5: a one-point series with `window = 1` has no defined
resilience value, `current_ar1 = 0` and status `NORMAL`. -/
theorem c5_csd_status_witness :
    (computeCsd [1] 1 1).current_ar1 = 0 ∧ (computeCsd [1] 1 1).status = "NORMAL" :=
  c5_csd_status.2.2 [1] 1 1 (by simp)

/-- C6: the kernel detrender renormalises a two-sided Gaussian kernel over
the whole series, `trend[i] = (Σⱼ exp(-0.5·((j-i)/h)²)·price[j]) /
(Σⱼ exp(-0.5·((j-i)/h)²))`, and the residual series has the same length and
alignment with `residual[i] = price[i] - trend[i]`. -/
theorem c6_kernel_detrender (prices : List ℝ) (bandwidth : ℝ) (hbw : 0 < bandwidth)
    (i : ℕ) (hi : i < prices.length) :
    trendAt prices bandwidth i =
      (∑ j ∈ Finset.range prices.length,
        Real.exp (-(1 / 2) * (((j : ℝ) - (i : ℝ)) / bandwidth) ^ 2) * prices.getD j 0) /
      (∑ j ∈ Finset.range prices.length,
        Real.exp (-(1 / 2) * (((j : ℝ) - (i : ℝ)) / bandwidth) ^ 2)) ∧
    (residualList prices bandwidth).length = prices.length ∧
    (residualList prices bandwidth).getD i 0 = prices.getD i 0 - trendAt prices bandwidth i := by
  refine ⟨?_, ?_, ?_⟩
  · simp only [trendAt, weightSum, gaussW]
    rw [Finset.sum_div]
    exact Finset.sum_congr rfl (fun j _ => div_mul_eq_mul_div _ _ _)
  · simp [residualList]
  · rw [residualList, getD_map_range _ _ _ _ hi]

/-- Witness for C6 on the two-point series `[1, 2]` with bandwidth `1`. -/
theorem c6_kernel_detrender_witness :
    trendAt [1, 2] 1 0 =
      (∑ j ∈ Finset.range ([1, 2] : List ℝ).length,
        Real.exp (-(1 / 2) * (((j : ℝ) - ((0 : ℕ) : ℝ)) / 1) ^ 2) * ([1, 2] : List ℝ).getD j 0) /
      (∑ j ∈ Finset.range ([1, 2] : List ℝ).length,
        Real.exp (-(1 / 2) * (((j : ℝ) - ((0 : ℕ) : ℝ)) / 1) ^ 2)) ∧
    (residualList [1, 2] 1).length = ([1, 2] : List ℝ).length ∧
    (residualList [1, 2] 1).getD 0 0 = ([1, 2] : List ℝ).getD 0 0 - trendAt [1, 2] 1 0 :=
  c6_kernel_detrender [1, 2] 1 (by norm_num) 0 (by simp)

/-- C8: with fewer than 100 defined resilience values the Rank Trend Scorer
returns `tau = 0` (total function, no error path); otherwise tau is computed
over exactly the most recent 100 defined values as
`(concordant - discordant) / (100·99/2)`. -/
theorem c8_kendall_fallback (valid : List ℝ) :
    (valid.length < 100 → kendallTau valid = 0) ∧
    (100 ≤ valid.length →
      kendallTau valid =
        (((concordantCount (lastN valid 100)) : ℝ) - ((discordantCount (lastN valid 100)) : ℝ)) /
          ((100 * (100 - 1) : ℝ) / 2)) := by
  constructor
  · intro h
    rw [kendallTau, if_pos h]
  · intro h
    have hlen : (lastN valid 100).length = 100 := by
      rw [lastN, List.length_drop]
      omega
    rw [kendallTau, if_neg (not_lt.mpr h), hlen, if_pos (by norm_num)]
    norm_num

/-- Witness for C8: the empty resilience list yields `tau = 0`. -/
theorem c8_kendall_fallback_witness : kendallTau [] = 0 :=
  (c8_kendall_fallback []).1 (by simp)

/-- C2: for window size `W` and every index `i` with `W + 1 ≤ i < n`, the
resilience value at `i` is the Pearson correlation of the slices
`residual[i-W, i)` and `residual[i-W-1, i-1)` clamped to `[-1, 1]`, provided
both slices have nonzero variance; a zero-variance slice leaves the index
undefined, and every index below `W + 1` is undefined. -/
theorem c2_rolling_ar1 (res : List ℝ) (W i : ℕ) :
    (W + 1 ≤ i → i < res.length →
      popVar (sliceSeg res (i - W) i) ≠ 0 →
      popVar (sliceSeg res (i - W - 1) (i - 1)) ≠ 0 →
      (ar1List res W).getD i none =
        some (clampR (pearson (sliceSeg res (i - W) i) (sliceSeg res (i - W - 1) (i - 1))))) ∧
    (W + 1 ≤ i → i < res.length →
      (popVar (sliceSeg res (i - W) i) = 0 ∨ popVar (sliceSeg res (i - W - 1) (i - 1)) = 0) →
      (ar1List res W).getD i none = none) ∧
    (i < W + 1 → (ar1List res W).getD i none = none) := by
  refine ⟨?_, ?_, ?_⟩
  · intro hW hi h1 h2
    rw [ar1List, getD_map_range _ _ _ none hi, if_pos hW,
      if_pos ⟨(stdDev_pos_iff _).2 h1, (stdDev_pos_iff _).2 h2⟩]
  · intro hW hi h
    rw [ar1List, getD_map_range _ _ _ none hi, if_pos hW, if_neg]
    rintro ⟨hs1, hs2⟩
    rcases h with h | h
    · exact (stdDev_pos_iff _).1 hs1 h
    · exact (stdDev_pos_iff _).1 hs2 h
  · intro hlt
    by_cases hi : i < res.length
    · rw [ar1List, getD_map_range _ _ _ none hi, if_neg (by omega)]
    · rw [ar1List, List.getD_eq_getElem?_getD, List.getElem?_eq_none]
      · rfl
      · simpa using not_lt.mp hi

/-- Witness for C2 on the residual series `[0, 1, 2, 3]` with `W = 2`,
`i = 3`: both length-2 slices have nonzero variance, so index 3 is defined
and equals the clamped Pearson correlation of the two slices. -/
theorem c2_rolling_ar1_witness :
    (ar1List [0, 1, 2, 3] 2).getD 3 none =
      some (clampR (pearson (sliceSeg [0, 1, 2, 3] (3 - 2) 3)
        (sliceSeg [0, 1, 2, 3] (3 - 2 - 1) (3 - 1)))) :=
  (c2_rolling_ar1 [0, 1, 2, 3] 2 3).1 (by norm_num) (by norm_num)
    (by norm_num [sliceSeg, popVar, mean])
    (by norm_num [sliceSeg, popVar, mean])

/-- C7: on at least 100 defined resilience values forming a strictly
increasing sequence the Rank Trend Scorer's Kendall tau equals exactly `1`
(every pair concordant), and on a strictly decreasing sequence exactly `-1`. -/
theorem c7_kendall_monotone (l : List ℝ) :
    (100 ≤ l.length → l.Pairwise (· < ·) → kendallTau l = 1) ∧
    (100 ≤ l.length → l.Pairwise (· > ·) → kendallTau l = -1) := by
  constructor
  · intro hlen hp
    have hrec : (lastN l 100).length = 100 := by
      rw [lastN, List.length_drop]
      omega
    obtain ⟨hc, hd⟩ := kendall_counts_of_lt (lastN l 100) hp.drop
    rw [kendallTau, if_neg (not_lt.mpr hlen), hrec, if_pos (by norm_num), hc, hd, hrec,
      sum_range_pred]
    norm_num
  · intro hlen hp
    have hrec : (lastN l 100).length = 100 := by
      rw [lastN, List.length_drop]
      omega
    obtain ⟨hc, hd⟩ := kendall_counts_of_gt (lastN l 100) hp.drop
    rw [kendallTau, if_neg (not_lt.mpr hlen), hrec, if_pos (by norm_num), hc, hd, hrec,
      sum_range_pred]
    norm_num

/-- Witness for C7: the strictly increasing sequence `0, 1, …, 99` yields
tau `1`, and its reversal yields tau `-1`. -/
theorem c7_kendall_monotone_witness :
    kendallTau (List.map (fun k : ℕ => (k : ℝ)) (List.range 100)) = 1 ∧
      kendallTau ((List.map (fun k : ℕ => (k : ℝ)) (List.range 100)).reverse) = -1 := by
  have hlt : (List.map (fun k : ℕ => (k : ℝ)) (List.range 100)).Pairwise (· < ·) := by
    refine List.pairwise_iff_getElem.2 ?_
    intro a b ha hb hab
    rw [List.getElem_map, List.getElem_map, List.getElem_range, List.getElem_range]
    exact_mod_cast hab
  have hlen : (List.map (fun k : ℕ => (k : ℝ)) (List.range 100)).length = 100 := by
    rw [List.length_map, List.length_range]
  constructor
  · exact (c7_kendall_monotone _).1 (le_of_eq hlen.symm) hlt
  · refine (c7_kendall_monotone _).2 (by rw [List.length_reverse, hlen]) ?_
    rw [List.pairwise_reverse]
    exact hlt

/-- C4 counterexample: a winning grid point with `r2 = 0.751` (admissible
`m = 0.5`, `ω = 8`, `tc_days = 11`) is declared a bubble, but the reported
confidence is the integer truncation `20`, not the claim's clamp value
`(0.751 - 0.7)/0.25·100 = 20.4`. -/
theorem c4_confidence_counterexample :
    (lpplTail 100 (some ⟨110, 0.5, 8, 0.751⟩)).is_bubble = true ∧
    (lpplTail 100 (some ⟨110, 0.5, 8, 0.751⟩)).confidence = 20 ∧
    (((lpplTail 100 (some ⟨110, 0.5, 8, 0.751⟩)).confidence : ℝ) ≠
      min 100 (max 0 (((0.751 : ℝ) - 0.7) / 0.25 * 100))) := by
  have hnr : ¬ (Fit.r2 ⟨110, 0.5, 8, 0.751⟩ : ℝ) < 0.7 := by norm_num
  have hR : lpplRangeOK (⟨110, 0.5, 8, 0.751⟩ : Fit)
      (((Fit.tc ⟨110, 0.5, 8, 0.751⟩ : ℕ) : ℤ) - ((100 : ℕ) : ℤ) + 1) := by
    refine ⟨⟨?_, ?_⟩, ⟨?_, ?_⟩, ?_, ?_⟩ <;> norm_num [lpplRangeOK]
  have hconf : lpplConfidence (0.751 : ℝ) = 20 := by
    rw [lpplConfidence]
    norm_num [Int.floor_eq_iff]
  refine ⟨?_, ?_, ?_⟩
  · simp only [lpplTail]
    rw [if_neg hnr, if_pos hR]
  · simp only [lpplTail]
    rw [if_neg hnr, if_pos hR]
    exact hconf
  · simp only [lpplTail]
    rw [if_neg hnr, if_pos hR]
    show ((lpplConfidence (0.751 : ℝ) : ℤ) : ℝ) ≠ _
    rw [hconf]
    norm_num

/-- C4 (amended): for every series of at least 100 points, if the grid search
selects no candidate the fitter reports no signature with confidence `0`;
if the selected candidate fails the final range checks the report has
`is_bubble = false`, confidence `0` and the no-signature reason; otherwise
`is_bubble = true` and the confidence is the integer truncation (floor) of
`clamp(0, 100, (R² - 0.7)/0.25·100)` of the winning point's `R²`. -/
theorem c4_lppl_report_amended (prices : List ℝ) (h : 100 ≤ prices.length) :
    (lpplSearch prices = none → computeLppl prices = lpplNoSig ("No bubble signature")) ∧
    (∀ f : Fit, lpplSearch prices = some f →
      (¬ lpplRangeOK f ((f.tc : ℤ) - ((min 500 prices.length : ℕ) : ℤ) + 1) →
        (computeLppl prices).is_bubble = false ∧ (computeLppl prices).confidence = 0 ∧
          (computeLppl prices).status = "No bubble signature") ∧
      (lpplRangeOK f ((f.tc : ℤ) - ((min 500 prices.length : ℕ) : ℤ) + 1) →
        (computeLppl prices).is_bubble = true ∧
          (computeLppl prices).confidence = lpplConfidence f.r2 ∧
          (computeLppl prices).status = "BUBBLE DETECTED")) := by
  have hnl : ¬ prices.length < 100 := not_lt.mpr h
  constructor
  · intro hs
    rw [computeLppl, if_neg hnl, hs]
    rfl
  · intro f hs
    have hnr : ¬ f.r2 < 0.7 := not_lt.mpr (le_of_lt (lpplSearch_r2 prices f hs))
    have hred : computeLppl prices = lpplTail (min 500 prices.length) (some f) := by
      rw [computeLppl, if_neg hnl, hs]
    constructor
    · intro hR
      refine ⟨?_, ?_, ?_⟩ <;>
        · rw [hred]
          simp only [lpplTail]
          rw [if_neg hnr, if_neg hR]
    · intro hR
      refine ⟨?_, ?_, ?_⟩ <;>
        · rw [hred]
          simp only [lpplTail]
          rw [if_neg hnr, if_pos hR]

/-- Witness for C4's amended theorem: on the constant 100-point series the
grid search keeps no candidate and the fitter reports no signature. -/
theorem c4_lppl_report_amended_witness :
    computeLppl (List.replicate 100 (1 : ℝ)) = lpplNoSig ("No bubble signature") :=
  (c4_lppl_report_amended (List.replicate 100 (1 : ℝ)) (by simp)).1 lpplSearch_replicate_one

/-- C9: the embedded analysis core is total — `compute_csd` and
`compute_lppl` contain no input-validation or refusal path, so every input
series (malformed or not) produces a report whose status is one of the fixed
labels; nothing is raised to the caller. -/
theorem c9_engine_total :
    (∀ (prices : List ℝ) (bandwidth : ℝ) (window : ℕ),
      (computeCsd prices bandwidth window).status = "CRITICAL" ∨
      (computeCsd prices bandwidth window).status = "ELEVATED" ∨
      (computeCsd prices bandwidth window).status = "RISING" ∨
      (computeCsd prices bandwidth window).status = "NORMAL") ∧
    (∀ prices : List ℝ,
      (computeLppl prices).status = "Insufficient data" ∨
      (computeLppl prices).status = "No bubble signature" ∨
      (computeLppl prices).status = "BUBBLE DETECTED") := by
  constructor
  · intro prices bandwidth window
    have hst : (computeCsd prices bandwidth window).status =
        csdStatus ((computeCsd prices bandwidth window).current_ar1) := rfl
    rw [hst, csdStatus]
    split_ifs
    · exact Or.inl rfl
    · exact Or.inr (Or.inl rfl)
    · exact Or.inr (Or.inr (Or.inl rfl))
    · exact Or.inr (Or.inr (Or.inr rfl))
  · intro prices
    rw [computeLppl]
    split_ifs
    · exact Or.inl rfl
    · rcases hS : lpplSearch prices with - | f
      · exact Or.inr (Or.inl rfl)
      · simp only [lpplTail]
        split_ifs <;> simp [lpplNoSig]

end FLR

end
